import Mathlib

/-
  Verification of the MCP_Search search/caching/extraction engine
  (MCP_Search.pyw) against its natural-language specification.

  Python strings are modelled as `List Char`; Python dicts as ordered
  association lists; a Python exception escaping a function is modelled as
  `Except.error`; the file-system cache directory is an association list from
  cache keys (file names) to entries carrying an mtime and the unpickled
  payload.  Each definition is a direct translation of the correspondingly
  named Python function.
-/

set_option autoImplicit false

namespace MCPSearch

/-- Python strings, modelled as lists of characters. -/
abbrev Str := List Char

/-- Python `str.lower()` (all strings involved are ASCII). -/
def pyLower (s : Str) : Str := s.map Char.toLower

/-- The Python whitespace set used by `str.strip()` and by the regex class backslash-s. -/
def isPySpace (c : Char) : Bool :=
  c = ' ' || c = '\t' || c = '\n' || c = '\r' || c = '\x0b' || c = '\x0c'

/-- Python `s.strip()`: remove leading and trailing whitespace. -/
def pyStrip (s : Str) : Str :=
  ((s.dropWhile isPySpace).reverse.dropWhile isPySpace).reverse

/-- Python `s.strip(chars)`: remove leading and trailing characters drawn from `chars`. -/
def pyStripChars (chars : Str) (s : Str) : Str :=
  ((s.dropWhile (chars.contains ·)).reverse.dropWhile (chars.contains ·)).reverse

/-- Python `needle in hay` on strings: substring test. -/
def pyIn (needle hay : Str) : Bool := decide (needle <:+: hay)

/-- Python `s.startswith(pre)`. -/
def pyStartsWith (pre s : Str) : Bool := decide (pre <+: s)

/-- Ordered association-list lookup (Python `dict` access / `in` test). -/
def lookupA {α : Type} (k : Str) : List (Str × α) → Option α
  | [] => none
  | (k', v) :: t => if k' = k then some v else lookupA k t

/-- Python `dict[k] = v` on an insertion-ordered dict. -/
def dictSet {α : Type} (k : Str) (v : α) : List (Str × α) → List (Str × α)
  | [] => [(k, v)]
  | (k', v') :: t => if k' = k then (k, v) :: t else (k', v') :: dictSet k v t

/-- Python dict `.get(k, dflt)` for a string-valued dict. -/
def pyGet (d : List (Str × Str)) (k dflt : Str) : Str :=
  match lookupA k d with
  | some v => v
  | none => dflt

/-- A Python `Dict[str, str]` as handed out by `ConfigManager.get_source_config`. -/
abbrev PyDict := List (Str × Str)

/-- Parsed JSON values, the output of `response.json()`. -/
inductive Json where
  | str (s : Str)
  | num (n : Int)
  | bool (b : Bool)
  | null
  | arr (xs : List Json)
  | obj (fields : List (Str × Json))

/-- The `SearchResult` dataclass.  `additional_info` defaults to the empty dict
    (`__post_init__` turns `None` into `{}`). -/
structure SearchResult where
  name : Str := []
  description : Str := []
  url : Str := []
  github_url : Str := []
  category : Str := []
  source : Str := []
  last_updated : Str := []
  additional_info : Json := .obj []

/-- One cache file: its mtime and its unpickled payload
    (`none` models a file that `pickle.load` fails on). -/
structure CacheEntry where
  mtime : Nat
  content : Option (List SearchResult)

/-- The cache directory: file names (cache keys) to entries. -/
abbrev CacheStore := List (Str × CacheEntry)

def storeLookup (key : Str) (s : CacheStore) : Option CacheEntry := lookupA key s

/-- `os.remove` of the file named `key`. -/
def storeErase (key : Str) (s : CacheStore) : CacheStore :=
  s.filter (fun kv => !(kv.1 = key : Bool))

/-- Overwriting write of the file named `key`. -/
def storeWrite (key : Str) (e : CacheEntry) (s : CacheStore) : CacheStore :=
  (key, e) :: storeErase key s

/-- `CacheManager._get_cache_key`: the md5 hexdigest of the combined string
    `source + "_" + query`.  The digest is an arbitrary function `hashFn` of the
    combined string; every statement below holds for every choice of `hashFn`. -/
def cacheKey (hashFn : Str → Str) (source query : Str) : Str :=
  hashFn (source ++ ['_'] ++ query)

/-- `CacheManager.get_cached_results`: returns the hit (or `None`) together with
    the cache directory after the read.  An entry older than
    `max_age_hours * 3600` seconds is removed and reported as a miss; an
    unreadable entry is likewise removed and reported as a miss. -/
def get_cached_results (hashFn : Str → Str) (store : CacheStore) (now : Nat)
    (source query : Str) (max_age_hours : Nat) :
    Option (List SearchResult) × CacheStore :=
  match storeLookup (cacheKey hashFn source query) store with
  | none => (none, store)
  | some e =>
    if now - e.mtime > max_age_hours * 3600 then
      (none, storeErase (cacheKey hashFn source query) store)
    else
      match e.content with
      | some rs => (some rs, store)
      | none => (none, storeErase (cacheKey hashFn source query) store)

/-- `CacheManager.cache_results`: write-through; the freshly written file gets
    the current time as its mtime. -/
def cache_results (hashFn : Str → Str) (store : CacheStore) (now : Nat)
    (source query : Str) (results : List SearchResult) : CacheStore :=
  storeWrite (cacheKey hashFn source query) ⟨now, some results⟩ store

/-- The retrieval-mode tags dispatched by `BaseSearchClient.search`. -/
def knownMethods : List Str :=
  ["api".data, "url_param".data, "github_api".data, "awesome_list".data, "scrape".data]

/-- What `BaseSearchClient.search` needs of its surroundings: the md5 digest,
    the current time, `ConfigManager.get_source_config` (a missing section gives
    the empty dict), and the five `_search_<method>` strategies, modelled as one
    oracle whose `Except.error` outcome stands for a Python exception escaping
    the strategy. -/
structure SearchEnv where
  hashFn : Str → Str
  now : Nat
  config : Str → PyDict
  runMethod : Str → PyDict → Str → Except Str (List SearchResult)

/-- The observable outcome of one `BaseSearchClient.search` call: the returned
    value (or an uncaught exception), the cache directory afterwards, which
    strategy (if any) was executed, and whether the cache was consulted. -/
structure SearchOutcome where
  result : Except Str (List SearchResult)
  store : CacheStore
  methodCalled : Option Str
  cacheRead : Bool

/-- The part of `BaseSearchClient.search` after the cache check: configuration
    lookup (`if not source_config: return []`), strategy dispatch inside the
    Python `try:` block (with `return []` for an unknown tag), write-through of
    non-empty results when caching is enabled, and the `except Exception`
    handler converting any strategy error into `[]`. -/
def searchFetch (env : SearchEnv) (store1 : CacheStore) (source_id query : Str)
    (use_cache : Bool) : SearchOutcome :=
  if (env.config source_id).isEmpty then ⟨.ok [], store1, none, use_cache⟩
  else
    if pyGet (env.config source_id) ("search_method".data) ("scrape".data)
        ∈ knownMethods then
      match env.runMethod
          (pyGet (env.config source_id) ("search_method".data) ("scrape".data))
          (env.config source_id) query with
      | .error _ =>
        ⟨.ok [], store1,
         some (pyGet (env.config source_id) ("search_method".data) ("scrape".data)),
         use_cache⟩
      | .ok results =>
        ⟨.ok results,
         if use_cache && !results.isEmpty then
           cache_results env.hashFn store1 env.now source_id query results
         else store1,
         some (pyGet (env.config source_id) ("search_method".data) ("scrape".data)),
         use_cache⟩
    else ⟨.ok [], store1, none, use_cache⟩

/-- `BaseSearchClient.search(source_id, query, use_cache)`: consult the cache
    when `use_cache` is set, return a hit immediately, otherwise fall through to
    `searchFetch`. -/
def search (env : SearchEnv) (store : CacheStore) (source_id query : Str)
    (use_cache : Bool) : SearchOutcome :=
  if use_cache then
    match get_cached_results env.hashFn store env.now source_id query 24 with
    | (some rs, store1) => ⟨.ok rs, store1, none, true⟩
    | (none, store1) => searchFetch env store1 source_id query true
  else searchFetch env store source_id query false

/-- The worst cases named by the spec for `searchOnce`: unknown source (empty
    config), unknown retrieval-mode tag, or a strategy failure (network or
    parse error escaping the strategy). -/
def searchFailCase (env : SearchEnv) (source_id query : Str) : Prop :=
  env.config source_id = [] ∨
  pyGet (env.config source_id) ("search_method".data) ("scrape".data) ∉ knownMethods ∨
  ∃ e, env.runMethod (pyGet (env.config source_id) ("search_method".data) ("scrape".data))
        (env.config source_id) query = .error e

theorem storeLookup_erase (key : Str) (s : CacheStore) :
    storeLookup key (storeErase key s) = none := by
  induction s with
  | nil => rfl
  | cons kv t ih =>
    by_cases h : kv.1 = key
    · simpa [storeErase, storeLookup, lookupA, h] using ih
    · simpa [storeErase, storeLookup, lookupA, h] using ih

theorem storeLookup_write (key : Str) (e : CacheEntry) (s : CacheStore) :
    storeLookup key (storeWrite key e s) = some e := by
  simp [storeWrite, storeLookup, lookupA]


theorem searchFetch_ok (env : SearchEnv) (store1 : CacheStore) (source_id query : Str)
    (use_cache : Bool) :
    (∃ rs, (searchFetch env store1 source_id query use_cache).result = .ok rs) ∧
    (searchFailCase env source_id query →
      (searchFetch env store1 source_id query use_cache).result = .ok []) := by
  unfold searchFetch
  by_cases hcfg : (env.config source_id).isEmpty = true
  · rw [if_pos hcfg]
    exact ⟨⟨[], rfl⟩, fun _ => rfl⟩
  · rw [if_neg hcfg]
    by_cases hm : pyGet (env.config source_id) ("search_method".data) ("scrape".data)
        ∈ knownMethods
    · rw [if_pos hm]
      cases hrun : env.runMethod
          (pyGet (env.config source_id) ("search_method".data) ("scrape".data))
          (env.config source_id) query with
      | error e => exact ⟨⟨[], rfl⟩, fun _ => rfl⟩
      | ok results =>
        refine ⟨⟨results, rfl⟩, fun hfail => ?_⟩
        rcases hfail with h | h | ⟨e, h⟩
        · exact absurd (by simp [h]) hcfg
        · exact absurd hm h
        · rw [hrun] at h; cases h
    · rw [if_neg hm]
      exact ⟨⟨[], rfl⟩, fun _ => rfl⟩

/-- C1: for every source id and query, `BaseSearchClient.search` never lets an
    exception reach its caller: the outcome is always `Except.ok`; and in the
    worst cases (unknown source, unknown retrieval-mode tag, strategy failure),
    a cache miss yields the empty list of records. -/
theorem searchOnce_never_raises (env : SearchEnv) (store : CacheStore)
    (source_id query : Str) (use_cache : Bool) :
    (∃ rs, (search env store source_id query use_cache).result = .ok rs) ∧
    ((use_cache = true →
        (get_cached_results env.hashFn store env.now source_id query 24).1 = none) →
      searchFailCase env source_id query →
      (search env store source_id query use_cache).result = .ok []) := by
  cases use_cache with
  | false =>
    exact ⟨(searchFetch_ok env store source_id query false).1,
           fun _ hf => (searchFetch_ok env store source_id query false).2 hf⟩
  | true =>
    unfold search
    rw [if_pos rfl]
    cases hread : get_cached_results env.hashFn store env.now source_id query 24 with
    | mk c st1 =>
      cases c with
      | some rs =>
        refine ⟨⟨rs, rfl⟩, fun hmiss _ => ?_⟩
        exact absurd (hmiss rfl) (by simp)
      | none =>
        exact ⟨(searchFetch_ok env st1 source_id query true).1,
               fun _ hf => (searchFetch_ok env st1 source_id query true).2 hf⟩

/-- A search environment with no configured sources, instantiating C1. -/
def env0 : SearchEnv :=
  { hashFn := id, now := 0, config := fun _ => [], runMethod := fun _ _ _ => .ok [] }

theorem searchOnce_never_raises_witness :
    (∃ rs, (search env0 [] ("src".data) ("q".data) true).result = .ok rs) ∧
    (search env0 [] ("src".data) ("q".data) true).result = .ok [] :=
  ⟨(searchOnce_never_raises env0 [] ("src".data) ("q".data) true).1,
   (searchOnce_never_raises env0 [] ("src".data) ("q".data) true).2
     (fun _ => rfl) (Or.inl rfl)⟩

/-- C5: a cache entry whose age exceeds the ttl (24 hours by default) is treated
    as absent: `get_cached_results` reports a miss, removes the entry from the
    cache directory on that read, and the subsequent `search` (for a configured
    source with a known retrieval-mode tag) executes its strategy, i.e.
    performs a live fetch instead of using the stale entry. -/
theorem expired_entry_is_miss_and_purged
    (env : SearchEnv) (store : CacheStore) (source_id query : Str) (e : CacheEntry)
    (hlook : storeLookup (cacheKey env.hashFn source_id query) store = some e)
    (hexp : env.now - e.mtime > 24 * 3600)
    (hcfg : env.config source_id ≠ [])
    (hm : pyGet (env.config source_id) ("search_method".data) ("scrape".data)
          ∈ knownMethods) :
    (get_cached_results env.hashFn store env.now source_id query 24).1 = none ∧
    storeLookup (cacheKey env.hashFn source_id query)
      (get_cached_results env.hashFn store env.now source_id query 24).2 = none ∧
    (search env store source_id query true).methodCalled =
      some (pyGet (env.config source_id) ("search_method".data) ("scrape".data)) := by
  have hmiss : get_cached_results env.hashFn store env.now source_id query 24 =
      (none, storeErase (cacheKey env.hashFn source_id query) store) := by
    simp [get_cached_results, hlook, hexp]
  refine ⟨by rw [hmiss], by rw [hmiss]; exact storeLookup_erase _ _, ?_⟩
  unfold search
  rw [if_pos rfl, hmiss]
  show (searchFetch env (storeErase (cacheKey env.hashFn source_id query) store)
      source_id query true).methodCalled = _
  unfold searchFetch
  have hcfg' : ¬ (env.config source_id).isEmpty = true := by
    simp [List.isEmpty_iff, hcfg]
  rw [if_neg hcfg', if_pos hm]
  cases env.runMethod (pyGet (env.config source_id) ("search_method".data) ("scrape".data))
      (env.config source_id) query <;> rfl

/-- A concrete environment with an expired cache entry, instantiating C5. -/
def env5 : SearchEnv :=
  { hashFn := id, now := 100000,
    config := fun _ => [(("search_method".data), ("api".data))],
    runMethod := fun _ _ _ => .ok [] }

def store5 : CacheStore := [(cacheKey id ("s".data) ("q".data), ⟨0, some []⟩)]

theorem expired_entry_is_miss_and_purged_witness :
    (get_cached_results env5.hashFn store5 env5.now ("s".data) ("q".data) 24).1 = none ∧
    storeLookup (cacheKey env5.hashFn ("s".data) ("q".data))
      (get_cached_results env5.hashFn store5 env5.now ("s".data) ("q".data) 24).2 = none ∧
    (search env5 store5 ("s".data) ("q".data) true).methodCalled =
      some (pyGet (env5.config ("s".data)) ("search_method".data) ("scrape".data)) :=
  expired_entry_is_miss_and_purged env5 store5 ("s".data) ("q".data) ⟨0, some []⟩
    (by rfl) (by decide) (by simp [env5]) (by decide)

/-- C6: if the cache holds an unexpired, readable entry for (source, query) and
    `search` runs with caching enabled, it returns exactly the cached records,
    executes no retrieval strategy (no network access), and leaves the cache
    directory unchanged. -/
theorem cache_hit_returns_without_network
    (env : SearchEnv) (store : CacheStore) (source_id query : Str)
    (e : CacheEntry) (rs : List SearchResult)
    (hlook : storeLookup (cacheKey env.hashFn source_id query) store = some e)
    (hfresh : ¬ env.now - e.mtime > 24 * 3600)
    (hcontent : e.content = some rs) :
    (search env store source_id query true).result = .ok rs ∧
    (search env store source_id query true).methodCalled = none ∧
    (search env store source_id query true).store = store := by
  have hhit : get_cached_results env.hashFn store env.now source_id query 24 =
      (some rs, store) := by
    simp [get_cached_results, hlook, hfresh, hcontent]
  unfold search
  rw [if_pos rfl, hhit]
  exact ⟨rfl, rfl, rfl⟩

def store6 : CacheStore :=
  [(cacheKey id ("s".data) ("q".data),
    ⟨0, some [{ name := "Foo".data, url := "http://a".data }]⟩)]

def env6 : SearchEnv :=
  { hashFn := id, now := 10, config := fun _ => [],
    runMethod := fun _ _ _ => .ok [] }

theorem cache_hit_returns_without_network_witness :
    (search env6 store6 ("s".data) ("q".data) true).result =
      .ok [{ name := "Foo".data, url := "http://a".data }] ∧
    (search env6 store6 ("s".data) ("q".data) true).methodCalled = none ∧
    (search env6 store6 ("s".data) ("q".data) true).store = store6 :=
  cache_hit_returns_without_network env6 store6 ("s".data) ("q".data)
    ⟨0, some [{ name := "Foo".data, url := "http://a".data }]⟩
    [{ name := "Foo".data, url := "http://a".data }]
    (by rfl) (by decide) rfl

/-- C10: `search` with `use_cache=False` leaves the cache directory completely
    unchanged and never consults it, whatever the fetch does. -/
theorem no_cache_search_is_cache_frame
    (env : SearchEnv) (store : CacheStore) (source_id query : Str) :
    (search env store source_id query false).store = store ∧
    (search env store source_id query false).cacheRead = false := by
  show (searchFetch env store source_id query false).store = store ∧
    (searchFetch env store source_id query false).cacheRead = false
  unfold searchFetch
  by_cases hcfg : (env.config source_id).isEmpty = true
  · rw [if_pos hcfg]; exact ⟨rfl, rfl⟩
  · rw [if_neg hcfg]
    by_cases hm : pyGet (env.config source_id) ("search_method".data) ("scrape".data)
        ∈ knownMethods
    · rw [if_pos hm]
      cases env.runMethod
          (pyGet (env.config source_id) ("search_method".data) ("scrape".data))
          (env.config source_id) query with
      | error e => exact ⟨rfl, rfl⟩
      | ok results => exact ⟨rfl, rfl⟩
    · rw [if_neg hm]; exact ⟨rfl, rfl⟩

/-- C9: the cache fingerprint is not injective: the distinct pairs
    ("a_b", "c") and ("a", "b_c") have the same combined string "a_b_c", hence
    the same cache key for every digest function, and results cached for the
    first pair are returned on a lookup for the second. -/
theorem cache_key_collision (hashFn : Str → Str) (now : Nat) (rs : List SearchResult) :
    (("a_b".data, "c".data) ≠ ("a".data, "b_c".data) : Prop) ∧
    cacheKey hashFn ("a_b".data) ("c".data) = cacheKey hashFn ("a".data) ("b_c".data) ∧
    (get_cached_results hashFn
        (cache_results hashFn [] now ("a_b".data) ("c".data) rs)
        now ("a".data) ("b_c".data) 24).1 = some rs := by
  have hkey : cacheKey hashFn ("a_b".data) ("c".data) =
      cacheKey hashFn ("a".data) ("b_c".data) := by
    unfold cacheKey
    exact congrArg hashFn (by decide)
  refine ⟨by decide, hkey, ?_⟩
  unfold get_cached_results cache_results
  rw [← hkey, storeLookup_write]
  simp

/-- What `SearchManager.search_category` needs of its surroundings:
    `ConfigManager.get_categories`, the client `BaseSearchClient.search` as an
    oracle (an `Except.error` outcome stands for a raised exception, caught by
    the orchestrator), and whether a `progress_callback` was supplied. -/
structure OrchestratorEnv where
  categories : List (Str × List Str)
  searchFn : Str → Str → Bool → Except Str (List SearchResult)
  hasCallback : Bool

/-- The `results` dict of `search_category`, keyed by source id. -/
abbrev ResultMap := List (Str × List SearchResult)

/-- The first pass of `search_category`: accumulate non-empty results keyed by
    source id; sources with an empty result or a raised exception are appended
    to `failed_sources` in order. -/
def firstPass (f : Str → Str → Bool → Except Str (List SearchResult))
    (query : Str) (sources : List Str) (results : ResultMap) (failed : List Str) :
    ResultMap × List Str :=
  match sources with
  | [] => (results, failed)
  | sid :: rest =>
    match f sid query true with
    | .ok rs =>
      if !rs.isEmpty then firstPass f query rest (dictSet sid rs results) failed
      else firstPass f query rest results (failed ++ [sid])
    | .error _ => firstPass f query rest results (failed ++ [sid])

/-- The retry pass of `search_category`: each failed source is searched once
    more with `use_cache=False`; a non-empty result is entered into the map, an
    empty result or an exception leaves the map unchanged. -/
def retryPass (f : Str → Str → Bool → Except Str (List SearchResult))
    (query : Str) (failed : List Str) (results : ResultMap) : ResultMap :=
  match failed with
  | [] => results
  | sid :: rest =>
    match f sid query false with
    | .ok rs =>
      if !rs.isEmpty then retryPass f query rest (dictSet sid rs results)
      else retryPass f query rest results
    | .error _ => retryPass f query rest results

/-- `SearchManager.search_category`: an unknown category gives the empty map;
    otherwise the first pass runs over the category's sources, and the retry
    pass runs only when there are failed sources AND a progress callback was
    supplied (`if failed_sources and progress_callback:` in the source). -/
def search_category (env : OrchestratorEnv) (category query : Str) : ResultMap :=
  match lookupA category env.categories with
  | none => []
  | some sources =>
    match firstPass env.searchFn query sources [] [] with
    | (results, failed) =>
      if !failed.isEmpty && env.hasCallback then
        retryPass env.searchFn query failed results
      else results

theorem lookupA_dictSet_self {A : Type} (k : Str) (v : A) (m : List (Str × A)) :
    lookupA k (dictSet k v m) = some v := by
  induction m with
  | nil => simp [dictSet, lookupA]
  | cons kv t ih =>
    obtain ⟨k1, v1⟩ := kv
    by_cases h : k1 = k
    · simp [dictSet, lookupA, h]
    · simp [dictSet, lookupA, h, ih]

theorem lookupA_dictSet_other {A : Type} (k k1 : Str) (v : A) (m : List (Str × A))
    (h : k1 ≠ k) : lookupA k (dictSet k1 v m) = lookupA k m := by
  have h' : ¬ (k = k1) := fun h2 => h h2.symm
  induction m with
  | nil => simp [dictSet, lookupA, h]
  | cons kv t ih =>
    obtain ⟨k2, v2⟩ := kv
    by_cases h2 : k2 = k1
    · subst h2
      simp [dictSet, lookupA, h, h']
    · by_cases h3 : k2 = k
      · simp [dictSet, lookupA, h2, h3, h']
      · simp [dictSet, lookupA, h2, h3, ih]

theorem firstPass_lookup_none (f : Str → Str → Bool → Except Str (List SearchResult))
    (query sid : Str)
    (hsid : f sid query true = .ok [] ∨ ∃ e, f sid query true = .error e) :
    ∀ (sources : List Str) (results : ResultMap) (failed : List Str),
      lookupA sid results = none →
      lookupA sid (firstPass f query sources results failed).1 = none := by
  intro sources
  induction sources with
  | nil => intro results failed h; simpa [firstPass] using h
  | cons s rest ih =>
    intro results failed h
    unfold firstPass
    cases hs : f s query true with
    | ok rs =>
      cases hrs : rs.isEmpty with
      | true =>
        simp only [hrs, Bool.not_true, Bool.false_eq_true, if_false]
        exact ih results (failed ++ [s]) h
      | false =>
        simp only [hrs, Bool.not_false, if_true]
        apply ih
        by_cases hss : s = sid
        · subst hss
          exfalso
          rcases hsid with h1 | ⟨e, h1⟩ <;> rw [h1] at hs
          · cases hs; simp at hrs
          · cases hs
        · rw [lookupA_dictSet_other sid s rs results hss]
          exact h
    | error e =>
      exact ih results (failed ++ [s]) h

theorem firstPass_mem_failed (f : Str → Str → Bool → Except Str (List SearchResult))
    (query sid : Str)
    (hsid : f sid query true = .ok [] ∨ ∃ e, f sid query true = .error e) :
    ∀ (sources : List Str) (results : ResultMap) (failed : List Str),
      sid ∈ failed ∨ sid ∈ sources →
      sid ∈ (firstPass f query sources results failed).2 := by
  intro sources
  induction sources with
  | nil =>
    intro results failed h
    rcases h with h | h
    · simpa [firstPass] using h
    · cases h
  | cons s rest ih =>
    intro results failed h
    have hnext : sid ∈ failed ++ [s] ∨ sid ∈ rest := by
      rcases h with h | h
      · exact Or.inl (List.mem_append_left _ h)
      · rcases List.mem_cons.mp h with h2 | h2
        · exact Or.inl (List.mem_append_right _ (by simp [h2]))
        · exact Or.inr h2
    unfold firstPass
    cases hs : f s query true with
    | ok rs =>
      cases hrs : rs.isEmpty with
      | true =>
        simp only [hrs, Bool.not_true, Bool.false_eq_true, if_false]
        exact ih results (failed ++ [s]) hnext
      | false =>
        simp only [hrs, Bool.not_false, if_true]
        apply ih
        rcases h with h | h
        · exact Or.inl h
        · rcases List.mem_cons.mp h with h2 | h2
          · exfalso
            rw [h2] at hsid
            rcases hsid with h1 | ⟨e, h1⟩ <;> rw [h1] at hs
            · cases hs; simp at hrs
            · cases hs
          · exact Or.inr h2
    | error e =>
      exact ih results (failed ++ [s]) hnext

theorem retryPass_lookup_none (f : Str → Str → Bool → Except Str (List SearchResult))
    (query sid : Str)
    (hsid : f sid query false = .ok [] ∨ ∃ e, f sid query false = .error e) :
    ∀ (failed : List Str) (results : ResultMap),
      lookupA sid results = none →
      lookupA sid (retryPass f query failed results) = none := by
  intro failed
  induction failed with
  | nil => intro results h; simpa [retryPass] using h
  | cons s rest ih =>
    intro results h
    unfold retryPass
    cases hs : f s query false with
    | ok rs =>
      cases hrs : rs.isEmpty with
      | true =>
        simp only [hrs, Bool.not_true, Bool.false_eq_true, if_false]
        exact ih results h
      | false =>
        simp only [hrs, Bool.not_false, if_true]
        apply ih
        by_cases hss : s = sid
        · subst hss
          exfalso
          rcases hsid with h1 | ⟨e, h1⟩ <;> rw [h1] at hs
          · cases hs; simp at hrs
          · cases hs
        · rw [lookupA_dictSet_other sid s rs results hss]
          exact h
    | error e =>
      exact ih results h

theorem retryPass_lookup_keep (f : Str → Str → Bool → Except Str (List SearchResult))
    (query sid : Str) (rs0 : List SearchResult)
    (hsid : f sid query false = .ok rs0) :
    ∀ (failed : List Str) (results : ResultMap),
      lookupA sid results = some rs0 →
      lookupA sid (retryPass f query failed results) = some rs0 := by
  intro failed
  induction failed with
  | nil => intro results h; simpa [retryPass] using h
  | cons s rest ih =>
    intro results h
    unfold retryPass
    cases hs : f s query false with
    | ok rs =>
      cases hrs : rs.isEmpty with
      | true =>
        simp only [hrs, Bool.not_true, Bool.false_eq_true, if_false]
        exact ih results h
      | false =>
        simp only [hrs, Bool.not_false, if_true]
        apply ih
        by_cases hss : s = sid
        · subst hss
          rw [hsid] at hs
          cases hs
          rw [lookupA_dictSet_self]
        · rw [lookupA_dictSet_other sid s rs results hss]
          exact h
    | error e =>
      exact ih results h

theorem retryPass_lookup_found (f : Str → Str → Bool → Except Str (List SearchResult))
    (query sid : Str) (rs0 : List SearchResult)
    (hsid : f sid query false = .ok rs0) (hne : rs0 ≠ []) :
    ∀ (failed : List Str) (results : ResultMap),
      sid ∈ failed →
      lookupA sid (retryPass f query failed results) = some rs0 := by
  intro failed
  induction failed with
  | nil => intro results h; cases h
  | cons s rest ih =>
    intro results h
    unfold retryPass
    by_cases hss : s = sid
    · subst hss
      have hb : rs0.isEmpty = false := by
        cases rs0 with
        | nil => exact absurd rfl hne
        | cons a t2 => rfl
      rw [hsid]
      simp only [hb, Bool.not_false, if_true]
      by_cases hmem : s ∈ rest
      · exact ih (dictSet s rs0 results) hmem
      · exact retryPass_lookup_keep f query s rs0 hsid rest (dictSet s rs0 results)
          (lookupA_dictSet_self s rs0 results)
    · have hmem : sid ∈ rest := by
        rcases List.mem_cons.mp h with h2 | h2
        · exact absurd h2.symm hss
        · exact h2
      cases hs : f s query false with
      | ok rs =>
        cases hrs : rs.isEmpty with
        | true =>
          simp only [hrs, Bool.not_true, Bool.false_eq_true, if_false]
          exact ih results hmem
        | false =>
          simp only [hrs, Bool.not_false, if_true]
          exact ih (dictSet s rs results) hmem
      | error e =>
        exact ih results hmem

theorem search_category_eq (env : OrchestratorEnv) (category query : Str)
    (sources : List Str) (hcat : lookupA category env.categories = some sources) :
    search_category env category query =
      (if !(firstPass env.searchFn query sources [] []).2.isEmpty && env.hasCallback then
        retryPass env.searchFn query (firstPass env.searchFn query sources [] []).2
          (firstPass env.searchFn query sources [] []).1
      else (firstPass env.searchFn query sources [] []).1) := by
  unfold search_category
  rw [hcat]

/-- C2 (amended): provided a progress callback is supplied, every source whose
    first-pass search came back empty (or raised) is retried once with caching
    bypassed; if the forced retry returns non-empty records they appear under
    that source's id in the final map returned by `search_category`, and a
    source still empty (or failing) after the retry is absent from the final
    map. -/
theorem search_category_retry_with_callback (env : OrchestratorEnv)
    (category query sid : Str) (sources : List Str)
    (hcat : lookupA category env.categories = some sources)
    (hmem : sid ∈ sources)
    (hcb : env.hasCallback = true)
    (hfirst : env.searchFn sid query true = .ok [] ∨
              ∃ e, env.searchFn sid query true = .error e) :
    (∀ rs, env.searchFn sid query false = .ok rs → rs ≠ [] →
        lookupA sid (search_category env category query) = some rs) ∧
    ((env.searchFn sid query false = .ok [] ∨
        ∃ e, env.searchFn sid query false = .error e) →
      lookupA sid (search_category env category query) = none) := by
  rw [search_category_eq env category query sources hcat]
  have hres : lookupA sid (firstPass env.searchFn query sources [] []).1 = none :=
    firstPass_lookup_none env.searchFn query sid hfirst sources [] [] rfl
  have hfail : sid ∈ (firstPass env.searchFn query sources [] []).2 :=
    firstPass_mem_failed env.searchFn query sid hfirst sources [] [] (Or.inr hmem)
  have hb : (firstPass env.searchFn query sources [] []).2.isEmpty = false := by
    cases h2 : (firstPass env.searchFn query sources [] []).2 with
    | nil => rw [h2] at hfail; cases hfail
    | cons a t2 => rfl
  rw [if_pos (by rw [hb, hcb]; rfl)]
  constructor
  · intro rs hret hne
    exact retryPass_lookup_found env.searchFn query sid rs hret hne
      (firstPass env.searchFn query sources [] []).2
      (firstPass env.searchFn query sources [] []).1 hfail
  · intro hret
    exact retryPass_lookup_none env.searchFn query sid hret
      (firstPass env.searchFn query sources [] []).2
      (firstPass env.searchFn query sources [] []).1 hres

/-- A sample record used by the orchestrator examples. -/
def rec0 : SearchResult :=
  { name := "Foo".data, url := "http://a".data, source := "s".data }

/-- An orchestrator environment whose only source returns nothing on the cached
    first pass and one record on a forced no-cache fetch, with NO progress
    callback supplied. -/
def cxEnvC2 : OrchestratorEnv :=
  { categories := [(("cat".data), ["s".data])],
    searchFn := fun _ _ use_cache => if use_cache then .ok [] else .ok [rec0],
    hasCallback := false }

/-- C2 counterexample: without a progress callback `search_category` performs
    no retry at all, so a source whose first pass is empty and whose forced
    no-cache retry would return non-empty records is nevertheless absent from
    the final map, contradicting the claim for this category search. -/
theorem search_category_no_retry_without_callback :
    search_category cxEnvC2 ("cat".data) ("q".data) = [] ∧
    cxEnvC2.searchFn ("s".data) ("q".data) true = .ok [] ∧
    cxEnvC2.searchFn ("s".data) ("q".data) false = .ok [rec0] ∧
    [rec0] ≠ ([] : List SearchResult) :=
  ⟨rfl, rfl, rfl, by simp⟩

/-- The same environment with a progress callback supplied, instantiating the
    amended C2. -/
def wEnvC2 : OrchestratorEnv :=
  { categories := [(("cat".data), ["s".data])],
    searchFn := fun _ _ use_cache => if use_cache then .ok [] else .ok [rec0],
    hasCallback := true }

theorem search_category_retry_with_callback_witness :
    lookupA ("s".data) (search_category wEnvC2 ("cat".data) ("q".data)) = some [rec0] :=
  (search_category_retry_with_callback wEnvC2 ("cat".data) ("q".data) ("s".data)
    ["s".data] rfl (by simp) rfl (Or.inl rfl)).1 [rec0] rfl (by simp)

/-- Python `text.split(sep)` lines; `List.splitOn` has the same semantics
    (`"".split(c)` gives one empty piece). -/
def pySplit (sep : Char) (s : Str) : List Str := s.splitOn sep

/-- The loop body of `BaseSearchClient._parse_text_response`: each line with
    non-blank content becomes a record named by the stripped line (truncated to
    100 characters); no URL field is ever set. -/
def textLoop (source_name : Str) : List Str → List SearchResult
  | [] => []
  | line :: rest =>
    if !(pyStrip line).isEmpty then
      { name := (pyStrip line).take 100,
        description := ("Content from ".data) ++ source_name,
        source := source_name } :: textLoop source_name rest
    else textLoop source_name rest

/-- `BaseSearchClient._parse_text_response`: basic text parsing over
    `lines[:10]`. -/
def parse_text_response (text : Str) (source_config : PyDict) : List SearchResult :=
  textLoop (pyGet source_config ("name".data) ("Unknown".data))
    ((pySplit '\n' text).take 10)

/-- The list iterated by `for item in items` in `_parse_api_response`
    (non-list payloads under the `results`/`data`/`items` key are outside the
    modelled fragment). -/
def jsonElems : Json → List Json
  | .arr xs => xs
  | _ => []

/-- Python dict `.get(k, dflt)` on a JSON object. -/
def jsonGet (fields : List (Str × Json)) (k : Str) (dflt : Json) : Json :=
  match lookupA k fields with
  | some v => v
  | none => dflt

/-- A JSON field value placed into a string slot of `SearchResult`; the claims
    below involve only string-valued or absent fields, other JSON values are
    outside the modelled fragment. -/
def jsonStr : Json → Str
  | .str s => s
  | _ => []

/-- `BaseSearchClient._parse_api_response`: pick the item list from the
    `results`/`data`/`items` key (else treat the payload as a single item, or a
    top-level list as the items), then map every dict item unvalidated into a
    record with aliased fields. -/
def parse_api_response (data : Json) (source_config : PyDict) : List SearchResult :=
  (match data with
   | .obj fields =>
     match lookupA ("results".data) fields with
     | some v => jsonElems v
     | none =>
       match lookupA ("data".data) fields with
       | some v => jsonElems v
       | none =>
         match lookupA ("items".data) fields with
         | some v => jsonElems v
         | none => [data]
   | .arr xs => xs
   | _ => []).filterMap (fun (item : Json) =>
     match item with
     | .obj f =>
       some { name := jsonStr (jsonGet f ("name".data) (jsonGet f ("title".data) (.str []))),
              description :=
                jsonStr (jsonGet f ("description".data) (jsonGet f ("desc".data) (.str []))),
              url := jsonStr (jsonGet f ("url".data) (jsonGet f ("link".data) (.str []))),
              github_url := jsonStr (jsonGet f ("github_url".data)
                (jsonGet f ("repository_url".data) (.str []))),
              source := pyGet source_config ("name".data) ("Unknown".data),
              additional_info := .obj f }
     | _ => none)

/-- An HTTP response body: its text and the outcome of `response.json()`
    (`none` models a `json.JSONDecodeError`). -/
structure HttpResponse where
  text : Str
  json : Option Json

/-- The response-parsing stage of `_search_api` after a successful request:
    JSON parse when the body decodes, else the plain-text fallback. -/
def searchApiParse (resp : HttpResponse) (source_config : PyDict) : List SearchResult :=
  match resp.json with
  | some data => parse_api_response data source_config
  | none => parse_text_response resp.text source_config

/-- Stated from the spec's words for C8 (refinement comparison): the first `n`
    non-blank lines of the body become records, one per line. -/
def specFirstNonEmptyLines (n : Nat) (text : Str) (source_config : PyDict) :
    List SearchResult :=
  (((pySplit '\n' text).filter (fun l => !(pyStrip l).isEmpty)).take n).map
    (fun line =>
      { name := (pyStrip line).take 100,
        description := ("Content from ".data) ++
          pyGet source_config ("name".data) ("Unknown".data),
        source := pyGet source_config ("name".data) ("Unknown".data) })

def bodyA : Str := "a\nb\nc\nd\ne\nf\ng\nh\ni\nj".data

def bodyB : Str := '\n' :: bodyA

/-- C8 counterexample: no bound `n` makes the text fallback equal to "the first
    n non-blank lines become records": a leading blank line consumes part of
    the 10-line window, so `bodyA` (10 non-blank lines, 10 records) and `bodyB`
    (a blank line then the same 10 lines, 9 records) force incompatible `n`. -/
theorem text_fallback_not_first_n_nonempty :
    ¬ ∃ n : Nat,
      parse_text_response bodyA [] = specFirstNonEmptyLines n bodyA [] ∧
      parse_text_response bodyB [] = specFirstNonEmptyLines n bodyB [] := by
  rintro ⟨n, h1, h2⟩
  have l1 := congrArg List.length h1
  have l2 := congrArg List.length h2
  have e1 : (parse_text_response bodyA []).length = 10 := by decide
  have e2 : (parse_text_response bodyB []).length = 9 := by decide
  have f1 : ((pySplit '\n' bodyA).filter (fun l => !(pyStrip l).isEmpty)).length = 10 := by
    decide
  have f2 : ((pySplit '\n' bodyB).filter (fun l => !(pyStrip l).isEmpty)).length = 10 := by
    decide
  rw [e1] at l1
  rw [e2] at l2
  simp only [specFirstNonEmptyLines, List.length_map, List.length_take, f1] at l1
  simp only [specFirstNonEmptyLines, List.length_map, List.length_take, f2] at l2
  omega

theorem textLoop_eq_filterMap (sn : Str) (lines : List Str) :
    textLoop sn lines = lines.filterMap (fun line =>
      if !(pyStrip line).isEmpty then
        some { name := (pyStrip line).take 100,
               description := ("Content from ".data) ++ sn,
               source := sn }
      else none) := by
  induction lines with
  | nil => rfl
  | cons l t ih =>
    unfold textLoop
    cases hb : (pyStrip l).isEmpty with
    | true =>
      simp only [hb, Bool.not_true, Bool.false_eq_true, if_false, List.filterMap_cons]
      exact ih
    | false =>
      simp only [hb, Bool.not_false, if_true, List.filterMap_cons]
      rw [ih]

/-- C8 (amended): on a JSON-decode failure `_search_api` does not fail and does
    not drop the body: it falls back to the line-based plain-text parse, and
    that parse turns exactly the non-blank lines among the FIRST TEN LINES of
    the body into records, one record per such line, named by the stripped line
    text truncated to 100 characters (records carry no URL). -/
theorem api_json_failure_falls_back (resp : HttpResponse) (source_config : PyDict)
    (h : resp.json = none) :
    searchApiParse resp source_config =
      ((pySplit '\n' resp.text).take 10).filterMap (fun line =>
        if !(pyStrip line).isEmpty then
          some { name := (pyStrip line).take 100,
                 description := ("Content from ".data) ++
                   pyGet source_config ("name".data) ("Unknown".data),
                 source := pyGet source_config ("name".data) ("Unknown".data) }
        else none) := by
  unfold searchApiParse
  rw [h]
  exact textLoop_eq_filterMap _ _

theorem api_json_failure_falls_back_witness :
    searchApiParse ⟨bodyA, none⟩ [] =
      ((pySplit '\n' bodyA).take 10).filterMap (fun line =>
        if !(pyStrip line).isEmpty then
          some { name := (pyStrip line).take 100,
                 description := ("Content from ".data) ++
                   pyGet [] ("name".data) ("Unknown".data),
                 source := pyGet [] ("name".data) ("Unknown".data) }
        else none) :=
  api_json_failure_falls_back ⟨bodyA, none⟩ [] rfl

/-- The record `_parse_api_response` builds from the empty JSON object. -/
def emptyItemRecord : SearchResult :=
  { name := [], description := [], url := [], github_url := [],
    source := "Unknown".data, additional_info := .obj [] }

/-- C4 counterexample: `_parse_api_response` performs no validation, so the
    payload whose single item is the empty JSON object yields a record with an
    empty name and both URL fields empty, and that record IS returned rather
    than dropped. -/
theorem api_parse_returns_invalid_record :
    parse_api_response (.obj [(("items".data), .arr [.obj []])]) [] =
      [emptyItemRecord] ∧
    emptyItemRecord.name = [] ∧
    emptyItemRecord.url = [] ∧
    emptyItemRecord.github_url = [] :=
  ⟨rfl, rfl, rfl, rfl⟩

/-- Parse a markdown link at the head of `s`: the regex fragment
    `\[([^\]]+)\]\(([^)]+)\)`.  Both captures are non-empty; the greedy
    character classes make the name run to the first closing bracket and the
    url to the first closing parenthesis, deterministically.  Returns
    (name, url, rest-of-line). -/
def parseLink : Str → Option (Str × Str × Str)
  | '[' :: rest =>
    match rest.dropWhile (fun c => !(c = ']' : Bool)) with
    | ']' :: '(' :: rest3 =>
      match rest3.dropWhile (fun c => !(c = ')' : Bool)) with
      | ')' :: rest5 =>
        if !(rest.takeWhile (fun c => !(c = ']' : Bool))).isEmpty &&
           !(rest3.takeWhile (fun c => !(c = ')' : Bool))).isEmpty then
          some (rest.takeWhile (fun c => !(c = ']' : Bool)),
                rest3.takeWhile (fun c => !(c = ')' : Bool)), rest5)
        else none
      | _ => none
    | _ => none
  | _ => none

/-- The regex tail `\s*[-:]?\s*(.*)$`: skip whitespace, at most one dash or
    colon, whitespace again; the remainder is the captured trailing text. -/
def sepTail (s : Str) : Str :=
  match s.dropWhile isPySpace with
  | c :: t => if c = '-' || c = ':' then t.dropWhile isPySpace else c :: t
  | [] => []

/-- Awesome-list pattern 1: `^[\s]*[-\*]\s*\[name\](url)\s*[-:]?\s*(.*)$`. -/
def pat1 (line : Str) : Option (Str × Str × Str) :=
  match line.dropWhile isPySpace with
  | c :: rest =>
    if c = '-' || c = '*' then
      match parseLink (rest.dropWhile isPySpace) with
      | some (n, u, rest5) => some (n, u, sepTail rest5)
      | none => none
    else none
  | [] => none

/-- Awesome-list pattern 2 (bold link):
    `^[\s]*[-\*]\s*\*\*\[name\](url)\*\*\s*[-:]?\s*(.*)$`. -/
def pat2 (line : Str) : Option (Str × Str × Str) :=
  match line.dropWhile isPySpace with
  | c :: rest =>
    if c = '-' || c = '*' then
      match rest.dropWhile isPySpace with
      | '*' :: '*' :: rest2 =>
        match parseLink rest2 with
        | some (n, u, rest5) =>
          match rest5 with
          | '*' :: '*' :: rest6 => some (n, u, sepTail rest6)
          | _ => none
        | none => none
      | _ => none
    else none
  | [] => none

/-- Awesome-list pattern 3 (description in bold):
    `^[\s]*[-\*]\s*\[name\](url)\s*\*\*([^*]+)\*\*.*$`. -/
def pat3 (line : Str) : Option (Str × Str × Str) :=
  match line.dropWhile isPySpace with
  | c :: rest =>
    if c = '-' || c = '*' then
      match parseLink (rest.dropWhile isPySpace) with
      | some (n, u, rest5) =>
        match rest5.dropWhile isPySpace with
        | '*' :: '*' :: rest6 =>
          match rest6.dropWhile (fun ch => !(ch = '*' : Bool)) with
          | '*' :: '*' :: _ =>
            if !(rest6.takeWhile (fun ch => !(ch = '*' : Bool))).isEmpty then
              some (n, u, rest6.takeWhile (fun ch => !(ch = '*' : Bool)))
            else none
          | _ => none
        | _ => none
      | none => none
    else none
  | [] => none

/-- Awesome-list pattern 4 (numbered list):
    `^[\s]*\d+\.\s*\[name\](url)\s*[-:]?\s*(.*)$`. -/
def pat4 (line : Str) : Option (Str × Str × Str) :=
  match line.dropWhile isPySpace with
  | c :: rest =>
    if c.isDigit then
      match (c :: rest).dropWhile Char.isDigit with
      | '.' :: rest2 =>
        match parseLink (rest2.dropWhile isPySpace) with
        | some (n, u, rest5) => some (n, u, sepTail rest5)
        | none => none
      | _ => none
    else none
  | [] => none

/-- The noise vocabulary (`skip_patterns`) of `_parse_awesome_list_content`. -/
def skipPatterns : List Str :=
  ["table of contents".data, "contributing".data, "license".data, "readme".data,
   "back to top".data, "go to".data, "see also".data, "more info".data,
   "documentation".data, "wiki".data, "website".data, "homepage".data]

/-- Description cleanup: `.strip()`, drop the markdown marks `*`, `_` and the
    backquote, then `.strip(' .-:')`. -/
def cleanDescription (d : Str) : Str :=
  pyStripChars (" .-:".data)
    ((pyStrip d).filter (fun c => !(c = '*' || c = '_' || c = '\x60')))

/-- First description-enhancement step: append or synthesise the category. -/
def awesomeDescription1 (description current_category : Str) : Str :=
  if !current_category.isEmpty &&
      !(pyIn (pyLower current_category) (pyLower description)) then
    if !description.isEmpty then
      description ++ (" (Category: ".data) ++ current_category ++ [')']
    else ("From ".data) ++ current_category ++ (" category".data)
  else description

/-- Second description-enhancement step: a still-empty description gets a
    category fallback or the generic text. -/
def awesomeDescription2 (d1 current_category : Str) : Str :=
  if d1.isEmpty && !current_category.isEmpty then
    ("Tool from ".data) ++ current_category ++ (" category".data)
  else if d1.isEmpty then "Tool from awesome list".data
  else d1

/-- The description enhancement and record assembly inside the query-filter
    branch of `_parse_awesome_list_content`. -/
def mkAwesomeRecord (name url description current_category source_name : Str) :
    SearchResult :=
  { name := name,
    description :=
      awesomeDescription2 (awesomeDescription1 description current_category)
        current_category,
    url := url,
    github_url := if pyIn ("github.com".data) url then url else [],
    source := source_name, category := current_category }

/-- One line of the pattern loop of `_parse_awesome_list_content`: patterns are
    tried in order; a match whose name is too short or which hits the noise
    vocabulary falls through to the NEXT pattern (Python `continue` inside the
    pattern loop); the first match passing those checks settles the line
    (`break`): it yields a record when the lowered query is a substring of the
    name, the cleaned description or the current section, nothing otherwise. -/
def lineOutcome (pats : List (Str → Option (Str × Str × Str)))
    (line current_category query_lower source_name : Str) :
    Option SearchResult :=
  match pats with
  | [] => none
  | p :: rest =>
    match p line with
    | none => lineOutcome rest line current_category query_lower source_name
    | some (n, u, d) =>
      if (pyStrip n).isEmpty || (pyStrip n).length < 2 then
        lineOutcome rest line current_category query_lower source_name
      else if skipPatterns.any (fun sk =>
          pyIn sk (pyLower (pyStrip n)) || pyIn sk (pyLower (cleanDescription d))) then
        lineOutcome rest line current_category query_lower source_name
      else if pyIn query_lower (pyLower (pyStrip n)) ||
          pyIn query_lower (pyLower (cleanDescription d)) ||
          pyIn query_lower (pyLower current_category) then
        some (mkAwesomeRecord (pyStrip n) (pyStrip u) (cleanDescription d)
          current_category source_name)
      else none

/-- Strip the leading hashes and following whitespace of a heading
    (`re.sub` with the anchored `#+` then whitespace) and strip the result. -/
def headingCategory (line : Str) : Str :=
  pyStrip ((line.dropWhile (fun c => c = '#')).dropWhile isPySpace)

def awesomePatterns : List (Str → Option (Str × Str × Str)) := [pat1, pat2, pat3, pat4]

/-- The line loop of `_parse_awesome_list_content`: each raw line is stripped;
    a line starting with a hash updates the current section; any other line
    goes through the pattern cascade and may append one record. -/
def awesomeLoop (lines : List Str) (current_category query_lower source_name : Str) :
    List SearchResult :=
  match lines with
  | [] => []
  | l :: rest =>
    if pyStartsWith (['#']) (pyStrip l) then
      awesomeLoop rest (headingCategory (pyStrip l)) query_lower source_name
    else
      match lineOutcome awesomePatterns (pyStrip l) current_category query_lower
          source_name with
      | some r => r :: awesomeLoop rest current_category query_lower source_name
      | none => awesomeLoop rest current_category query_lower source_name

/-- `BaseSearchClient._parse_awesome_list_content`. -/
def parse_awesome_list_content (content : Str) (source_config : PyDict)
    (query : Str) : List SearchResult :=
  awesomeLoop (pySplit '\n' content) [] (pyLower query)
    (pyGet source_config ("name".data) ("GitHub".data))

theorem awesomeLoop_mem (lines : List Str) :
    ∀ (cat ql sn : Str) (r : SearchResult), r ∈ awesomeLoop lines cat ql sn →
      ∃ l cat2, l ∈ lines ∧
        lineOutcome awesomePatterns (pyStrip l) cat2 ql sn = some r := by
  induction lines with
  | nil => intro cat ql sn r h; cases h
  | cons l rest ih =>
    intro cat ql sn r h
    unfold awesomeLoop at h
    by_cases hh : pyStartsWith (['#']) (pyStrip l) = true
    · rw [if_pos hh] at h
      obtain ⟨l2, cat2, hl2, hout⟩ := ih _ _ _ r h
      exact ⟨l2, cat2, List.mem_cons_of_mem _ hl2, hout⟩
    · rw [if_neg hh] at h
      cases hout : lineOutcome awesomePatterns (pyStrip l) cat ql sn with
      | some r2 =>
        rw [hout] at h
        rcases List.mem_cons.mp h with h2 | h2
        · subst h2
          exact ⟨l, cat, List.mem_cons_self _ _, hout⟩
        · obtain ⟨l2, cat2, hl2, ho⟩ := ih _ _ _ r h2
          exact ⟨l2, cat2, List.mem_cons_of_mem _ hl2, ho⟩
      | none =>
        rw [hout] at h
        obtain ⟨l2, cat2, hl2, ho⟩ := ih _ _ _ r h
        exact ⟨l2, cat2, List.mem_cons_of_mem _ hl2, ho⟩

theorem lineOutcome_name_nonempty (pats : List (Str → Option (Str × Str × Str))) :
    ∀ (line cat ql sn : Str) (r : SearchResult),
      lineOutcome pats line cat ql sn = some r → r.name ≠ [] := by
  induction pats with
  | nil => intro line cat ql sn r h; cases h
  | cons p rest ih =>
    intro line cat ql sn r h
    unfold lineOutcome at h
    cases hp : p line with
    | none =>
      rw [hp] at h
      exact ih _ _ _ _ r h
    | some t =>
      obtain ⟨n, u, d⟩ := t
      simp only [hp] at h
      by_cases hb1 : ((pyStrip n).isEmpty || decide ((pyStrip n).length < 2)) = true
      · rw [if_pos hb1] at h
        exact ih _ _ _ _ r h
      · rw [if_neg hb1] at h
        by_cases hb2 : (skipPatterns.any (fun sk =>
            pyIn sk (pyLower (pyStrip n)) ||
              pyIn sk (pyLower (cleanDescription d)))) = true
        · rw [if_pos hb2] at h
          exact ih _ _ _ _ r h
        · rw [if_neg hb2] at h
          by_cases hb3 : (pyIn ql (pyLower (pyStrip n)) ||
              pyIn ql (pyLower (cleanDescription d)) || pyIn ql (pyLower cat)) = true
          · rw [if_pos hb3] at h
            cases h
            simp only [mkAwesomeRecord]
            intro heq
            apply hb1
            rw [heq]
            simp
          · rw [if_neg hb3] at h
            cases h

/-- The test document of the spec's markdown-extraction property. -/
def docC3 : Str :=
  "# Servers\n- [Foo](http://a) - bar thing\n- [Table of Contents](http://b)".data

/-- The single record the markdown extraction produces from `docC3`. -/
def recFoo : SearchResult :=
  { name := "Foo".data,
    description := "bar thing (Category: Servers)".data,
    url := "http://a".data, github_url := [],
    source := "GitHub".data, category := "Servers".data }

theorem lineOutcome_headingC3 (cat ql sn : Str) :
    lineOutcome awesomePatterns (pyStrip ("# Servers".data)) cat ql sn = none := rfl

theorem lineOutcome_tocC3 (cat ql sn : Str) :
    lineOutcome awesomePatterns
      (pyStrip ("- [Table of Contents](http://b)".data)) cat ql sn = none := rfl

theorem lineOutcome_fooC3 (cat ql sn : Str) :
    lineOutcome awesomePatterns
      (pyStrip ("- [Foo](http://a) - bar thing".data)) cat ql sn =
      (if pyIn ql ("foo".data) || pyIn ql ("bar thing".data) || pyIn ql (pyLower cat) then
        some (mkAwesomeRecord ("Foo".data) ("http://a".data) ("bar thing".data) cat sn)
      else none) := rfl

theorem lineOutcome_fooC3_name (cat ql sn : Str) (r : SearchResult)
    (h : lineOutcome awesomePatterns
        (pyStrip ("- [Foo](http://a) - bar thing".data)) cat ql sn = some r) :
    r.name = "Foo".data := by
  rw [lineOutcome_fooC3] at h
  by_cases hq : (pyIn ql ("foo".data) || pyIn ql ("bar thing".data) ||
      pyIn ql (pyLower cat)) = true
  · rw [if_pos hq] at h
    cases h
    rfl
  · rw [if_neg hq] at h
    cases h

/-- C3: on the document `docC3` the markdown-catalog extraction returns for the
    query "foo" exactly one record, named "Foo" with url "http://a" and a
    description containing "bar thing"; the query "bar" returns the same
    output (substring match on the description); and for EVERY query, no
    returned record is named "Table of Contents" (noise vocabulary). -/
theorem awesome_list_example :
    parse_awesome_list_content docC3 [] ("foo".data) = [recFoo] ∧
    recFoo.name = "Foo".data ∧
    recFoo.url = "http://a".data ∧
    pyIn ("bar thing".data) recFoo.description = true ∧
    parse_awesome_list_content docC3 [] ("bar".data) =
      parse_awesome_list_content docC3 [] ("foo".data) ∧
    ∀ (query : Str) (r : SearchResult),
      r ∈ parse_awesome_list_content docC3 [] query →
      r.name ≠ "Table of Contents".data := by
  refine ⟨rfl, rfl, rfl, by decide, rfl, ?_⟩
  intro query r hr
  obtain ⟨l, cat2, hl, hout⟩ := awesomeLoop_mem (pySplit '\n' docC3) [] (pyLower query)
    (pyGet [] ("name".data) ("GitHub".data)) r hr
  have hsplit : pySplit '\n' docC3 =
      [("# Servers".data), ("- [Foo](http://a) - bar thing".data),
       ("- [Table of Contents](http://b)".data)] := by decide
  rw [hsplit] at hl
  simp only [List.mem_cons, List.not_mem_nil, or_false] at hl
  rcases hl with h | h | h
  · subst h
    rw [lineOutcome_headingC3] at hout
    exact Option.noConfusion hout
  · subst h
    rw [lineOutcome_fooC3_name cat2 (pyLower query)
      (pyGet [] ("name".data) ("GitHub".data)) r hout]
    decide
  · subst h
    rw [lineOutcome_tocC3] at hout
    exact Option.noConfusion hout

theorem awesome_list_example_witness :
    recFoo ∈ parse_awesome_list_content docC3 [] ("foo".data) ∧
    recFoo.name ≠ "Table of Contents".data :=
  ⟨by rw [awesome_list_example.1]; exact List.mem_singleton_self _,
   awesome_list_example.2.2.2.2.2 ("foo".data) recFoo
     (by rw [awesome_list_example.1]; exact List.mem_singleton_self _)⟩

/-- A parsed HTML element: tag, class list, other attributes, its own direct
    text, and child elements in document order.  Text nodes are folded into
    `ownText`; the soup itself is modelled as a root node whose children are
    the top-level elements. -/
inductive HNode where
  | elem (tag : Str) (classes : List Str) (attrs : List (Str × Str))
      (ownText : Str) (children : List HNode)

def HNode.tag : HNode → Str
  | .elem t _ _ _ _ => t

def HNode.classes : HNode → List Str
  | .elem _ cs _ _ _ => cs

def HNode.attrs : HNode → List (Str × Str)
  | .elem _ _ a _ _ => a

def HNode.ownText : HNode → Str
  | .elem _ _ _ tx _ => tx

def HNode.children : HNode → List HNode
  | .elem _ _ _ _ ch => ch

/-- `element.get(name)`: attribute lookup. -/
def HNode.attr (n : HNode) (k : Str) : Option Str := lookupA k n.attrs

mutual
/-- Preorder traversal pairing every node of the subtree with its parent
    (BeautifulSoup document order); the node itself comes first with the given
    parent. -/
def nodesWP (parent : Option HNode) : HNode → List (Option HNode × HNode)
  | .elem t cs a tx ch =>
    (parent, .elem t cs a tx ch) :: nodesWPL (some (.elem t cs a tx ch)) ch

/-- Preorder traversal of a forest of siblings sharing one parent. -/
def nodesWPL (parent : Option HNode) : List HNode → List (Option HNode × HNode)
  | [] => []
  | c :: cs => nodesWP parent c ++ nodesWPL parent cs
end

/-- The proper descendants of a node with their parents (what `find`/`find_all`
    and `select` search when called on an element or on the soup). -/
def descendantsWP (e : HNode) : List (Option HNode × HNode) :=
  nodesWPL (some e) e.children

/-- `element.get_text(strip=True)`: the stripped text pieces of the subtree
    joined in document order. -/
def getTextStrip (n : HNode) : Str :=
  ((nodesWP none n).map (fun pn => pyStrip pn.2.ownText)).foldl (· ++ ·) []

/-- An `a` element carrying an href (`find_all('a', href=True)` predicate). -/
def isHrefLink (n : HNode) : Bool :=
  (n.tag == "a".data) && (n.attr ("href".data)).isSome

/-- `x.find_all('a', href=True)`: the href-carrying links of the subtree. -/
def linksOf (e : HNode) : List HNode :=
  ((descendantsWP e).map Prod.snd).filter isHrefLink

/-- `x.find(pred)`: first descendant satisfying the predicate. -/
def findDesc (e : HNode) (pred : HNode → Bool) : Option HNode :=
  ((descendantsWP e).map Prod.snd).find? pred

/-- The CSS selectors `_parse_generic_results` uses: class and tag selectors. -/
inductive Selector where
  | cls (c : Str)
  | tag (t : Str)

def selMatches (sel : Selector) (n : HNode) : Bool :=
  match sel with
  | .cls c => n.classes.any (fun x => x == c)
  | .tag t => n.tag == t

/-- `soup.select(selector)` with the soup's elements and their parents. -/
def selectWP (soup : HNode) (sel : Selector) : List (Option HNode × HNode) :=
  (descendantsWP soup).filter (fun pn => selMatches sel pn.2)

/-- The ordered structural selectors of `_parse_generic_results`
    (`result_selectors`). -/
def resultSelectors : List Selector :=
  [.cls ("server-card".data), .cls ("result-item".data), .cls ("search-result".data),
   .cls ("mcp-server".data), .cls ("server-listing".data), .cls ("server-item".data),
   .cls ("card".data), .cls ("result".data), .cls ("entry".data),
   .tag ("article".data), .cls ("project".data), .cls ("repository".data),
   .cls ("tool".data)]

/-- The selector loop: the first selector yielding more than one element wins. -/
def firstSelectorHit (soup : HNode) : List Selector → Option (List (Option HNode × HNode))
  | [] => none
  | sel :: rest =>
    if (selectWP soup sel).length > 1 then some (selectWP soup sel)
    else firstSelectorHit soup rest

/-- The navigation fragments `_looks_like_result_link` skips. -/
def skipLinkPatterns : List Str :=
  ["next".data, "prev".data, "page".data, "home".data, "about".data,
   "contact".data, "login".data, "register".data]

/-- The result-like path fragments of `_looks_like_result_link`. -/
def resultLinkPatterns : List Str :=
  ["/server".data, "/tool".data, "/agent".data, "/mcp".data, "/project".data,
   "/repo".data]

/-- `BaseSearchClient._looks_like_result_link` (its `search_url` parameter is
    unused in the source). -/
def looks_like_result_link (link : HNode) (search_url : Str) : Bool :=
  if skipLinkPatterns.any (fun pat =>
      pyIn pat (pyLower ((link.attr ("href".data)).getD [])) ||
        pyIn pat (pyLower (getTextStrip link))) then
    false
  else
    resultLinkPatterns.any (fun pat =>
        pyIn pat (pyLower ((link.attr ("href".data)).getD []))) &&
      decide ((getTextStrip link).length > 3)

/-- Split a string at the first occurrence of `pat`. -/
def splitAtInfix (pat : Str) : Str → Option (Str × Str)
  | [] => if pat.isEmpty then some ([], []) else none
  | c :: t =>
    if pyStartsWith pat (c :: t) then some ([], (c :: t).drop pat.length)
    else
      match splitAtInfix pat t with
      | some (pre, post) => some (c :: pre, post)
      | none => none

/-- The scheme-plus-host prefix of a URL (empty when the base has none). -/
def hostPart (base : Str) : Str :=
  match splitAtInfix ("://".data) base with
  | some (pre, post) =>
    pre ++ ("://".data) ++ post.takeWhile (fun c => !(c = '/' : Bool))
  | none => []

/-- Everything up to and including the last slash of a URL. -/
def dirPart (base : Str) : Str :=
  (base.reverse.dropWhile (fun c => !(c = '/' : Bool))).reverse

/-- Simplified model of `urllib.parse.urljoin`, adequate for the refs the
    pipeline actually joins: a root-relative ref replaces the base's whole
    path, any other ref is resolved against the base's directory. -/
def urljoin (base ref : Str) : Str :=
  if pyStartsWith (['/']) ref then hostPart base ++ ref
  else dirPart base ++ ref

/-- The name-candidate scan of `_extract_result_from_element_enhanced`:
    h1..h4, a title/name/heading-classed span or div, strong, b, then a
    text-lg-classed div or span (the class lambda matches any single class). -/
def nameCandidates (e : HNode) : List (Option HNode) :=
  [findDesc e (fun n => n.tag == "h1".data),
   findDesc e (fun n => n.tag == "h2".data),
   findDesc e (fun n => n.tag == "h3".data),
   findDesc e (fun n => n.tag == "h4".data),
   findDesc e (fun n => (n.tag == "span".data || n.tag == "div".data) &&
     n.classes.any (fun x => pyIn ("title".data) x || pyIn ("name".data) x ||
       pyIn ("heading".data) x)),
   findDesc e (fun n => n.tag == "strong".data),
   findDesc e (fun n => n.tag == "b".data),
   findDesc e (fun n => (n.tag == "div".data || n.tag == "span".data) &&
     n.classes.any (fun x => pyIn ("text-lg".data) x))]

/-- First name candidate whose stripped text is longer than 2 characters. -/
def pickName : List (Option HNode) → Str
  | [] => []
  | none :: rest => pickName rest
  | some n :: rest =>
    if !(getTextStrip n).isEmpty && decide ((getTextStrip n).length > 2) then
      getTextStrip n
    else pickName rest

/-- The name of an element: the candidate scan, else for a link element its own
    text. -/
def extractName (e : HNode) : Str :=
  if (pickName (nameCandidates e)).isEmpty && e.tag == "a".data then getTextStrip e
  else pickName (nameCandidates e)

/-- The description-candidate scan (description-classed containers, gray/small
    text, any paragraph, then the parent's paragraph or text container). -/
def descCandidates (parent : Option HNode) (e : HNode) : List (Option HNode) :=
  [findDesc e (fun n => (n.tag == "p".data || n.tag == "div".data) &&
     n.classes.any (fun x => pyIn ("desc".data) x || pyIn ("summary".data) x ||
       pyIn ("content".data) x)),
   findDesc e (fun n => (n.tag == "span".data || n.tag == "div".data) &&
     n.classes.any (fun x => pyIn ("text-gray".data) x || pyIn ("text-sm".data) x)),
   findDesc e (fun n => n.tag == "p".data),
   match parent with
   | some pa => findDesc pa (fun n => n.tag == "p".data)
   | none => none,
   match parent with
   | some pa => findDesc pa (fun n => (n.tag == "div".data || n.tag == "span".data) &&
       n.classes.any (fun x => pyIn ("desc".data) x || pyIn ("text".data) x))
   | none => none]

/-- First description candidate passing the validity filter; default text
    otherwise.  The kept text is truncated to 200 characters. -/
def pickDescription (name : Str) : List (Option HNode) → Str
  | [] => "No description available".data
  | none :: rest => pickDescription name rest
  | some n :: rest =>
    if !(getTextStrip n).isEmpty && decide ((getTextStrip n).length > 15) &&
        !(getTextStrip n == name) &&
        !(["view details".data, "learn more".data, "read more".data,
           "details".data, "more".data, "click here".data].any
            (fun x => pyLower (getTextStrip n) == x)) &&
        !(pyStartsWith ("http".data) (getTextStrip n)) &&
        !(pyStartsWith ("www.".data) (getTextStrip n)) then
      (getTextStrip n).take 200
    else pickDescription name rest

/-- The fragments that push a link to the front of the url-candidate list in
    `_extract_result_from_element_enhanced` (note: no `/agent` here). -/
def urlPriorityPatterns : List Str :=
  ["/server".data, "/tool".data, "/mcp".data, "/project".data, "/repo".data]

/-- One step of the url-candidate assembly: a result-like href is inserted at
    position 0, any other href is appended. -/
def urlCandStep (cands : List (Option Str)) (link : HNode) : List (Option Str) :=
  match link.attr ("href".data) with
  | some href =>
    if urlPriorityPatterns.any (fun pat => pyIn pat href) then some href :: cands
    else cands ++ [some href]
  | none => cands

/-- The url candidates: the element's own href first (when it is a link), then
    every contained link, prioritised ones at the front. -/
def urlCandidates (e : HNode) : List (Option Str) :=
  (linksOf e).foldl urlCandStep
    (if e.tag == "a".data then [e.attr ("href".data)] else [])

/-- First truthy url candidate, relative refs resolved against the base. -/
def firstUrl (base_url : Str) : List (Option Str) → Str
  | [] => []
  | none :: rest => firstUrl base_url rest
  | some href :: rest =>
    if href.isEmpty then firstUrl base_url rest
    else if !(pyStartsWith ("http".data) href) then urljoin base_url href
    else href

/-- The final record assembly of `_extract_result_from_element_enhanced`:
    a record is produced only when both name and url are non-empty. -/
def assembleResult (source_name name description url : Str) : Option SearchResult :=
  if !name.isEmpty && !url.isEmpty then
    some { name := name, description := description, url := url,
           source := source_name }
  else none

/-- `BaseSearchClient._extract_result_from_element_enhanced` on an element
    paired with its parent (its `search_url` parameter is unused in the
    source). -/
def extract_result_enhanced (parent : Option HNode) (e : HNode)
    (source_name base_url search_url : Str) : Option SearchResult :=
  assembleResult source_name (extractName e)
    (pickDescription (extractName e) (descCandidates parent e))
    (firstUrl base_url (urlCandidates e))

/-- The utility-path denylist of `_is_valid_result` (`garbage_patterns`). -/
def garbagePatterns : List Str :=
  ["/new".data, "/create".data, "/add".data, "/search".data, "/filter".data,
   "/login".data, "/register".data, "/about".data, "/contact".data, "/help".data,
   "/faq".data, "/terms".data, "/privacy".data, "javascript:".data,
   "mailto:".data, "#".data, "?page=".data, "?sort=".data, "?filter=".data]

/-- The generic-name denylist of `_is_valid_result`. -/
def genericNames : List Str :=
  ["new".data, "create".data, "add".data, "search".data, "filter".data,
   "view".data, "details".data, "more".data, "home".data, "about".data,
   "contact".data, "help".data, "login".data, "register".data, "sign up".data]

/-- `BaseSearchClient._is_valid_result`. -/
def is_valid_result (r : SearchResult) (search_url : Str) : Bool :=
  if garbagePatterns.any (fun pat => pyIn pat (pyLower r.url)) then false
  else if r.name.isEmpty ||
      genericNames.any (fun g => pyStrip (pyLower r.name) == g) ||
      decide ((pyStrip r.name).length < 3) then false
  else if pyIn ("cursor.directory".data) search_url then
    if ["/mcp/new".data, "/new".data, "/create".data].any
        (fun pat => pyIn pat r.url) then false
    else if pyIn ("/mcp/".data) r.url && decide (r.url.count '/' > 4) then true
    else false
  else true

/-- The per-element collection loop of `_parse_generic_results`. -/
def collectGeneric (elems : List (Option HNode × HNode))
    (source_name base_url search_url : Str) : List SearchResult :=
  match elems with
  | [] => []
  | pe :: rest =>
    match extract_result_enhanced pe.1 pe.2 source_name base_url search_url with
    | some r =>
      if !(pyStrip r.name).isEmpty && is_valid_result r search_url then
        r :: collectGeneric rest source_name base_url search_url
      else collectGeneric rest source_name base_url search_url
    | none => collectGeneric rest source_name base_url search_url

/-- `BaseSearchClient._parse_generic_results`: try the structural selectors in
    order keeping the first one with more than one hit; otherwise scan all
    hyperlinks through `_looks_like_result_link`; extract from the first 50
    candidates and keep records that pass `_is_valid_result`. -/
def parse_generic_results (soup : HNode) (source_name base_url search_url : Str) :
    List SearchResult :=
  collectGeneric
    ((match firstSelectorHit soup resultSelectors with
      | some els => els
      | none =>
        (descendantsWP soup).filter
          (fun pn => isHrefLink pn.2 && looks_like_result_link pn.2 search_url)).take 50)
    source_name base_url search_url

/-- The hrefs of every hyperlink of the document (root included). -/
def docHrefs (soup : HNode) : List Str :=
  ((nodesWP none soup).map Prod.snd).filterMap
    (fun n => if n.tag == "a".data then n.attr ("href".data) else none)

theorem nodesWP_snd_indep (p q : Option HNode) (n : HNode) :
    (nodesWP p n).map Prod.snd = (nodesWP q n).map Prod.snd := by
  cases n
  simp [nodesWP]

theorem mem_nodesWP_of_desc (soup : HNode) (p : Option HNode)
    (pe : Option HNode × HNode) (h : pe ∈ descendantsWP soup) :
    pe ∈ nodesWP p soup := by
  cases soup
  exact List.mem_cons_of_mem _ h

mutual
theorem subtree_mem_trans (p pp : Option HNode) (m : HNode) (root : HNode)
    (hm : (pp, m) ∈ nodesWP p root) :
    ∀ x, x ∈ (nodesWP none m).map Prod.snd → x ∈ (nodesWP p root).map Prod.snd := by
  cases root with
  | elem t cs a tx ch =>
    rw [nodesWP] at hm
    rcases List.mem_cons.mp hm with h1 | h1
    · have hm2 : m = HNode.elem t cs a tx ch := (Prod.mk.injEq _ _ _ _).mp h1 |>.2
      subst hm2
      intro x hx
      rw [nodesWP_snd_indep p none]
      exact hx
    · intro x hx
      rw [nodesWP, List.map_cons]
      exact List.mem_cons_of_mem _ (subtreeL_mem_trans _ _ _ ch h1 x hx)

theorem subtreeL_mem_trans (p pp : Option HNode) (m : HNode) (l : List HNode)
    (hm : (pp, m) ∈ nodesWPL p l) :
    ∀ x, x ∈ (nodesWP none m).map Prod.snd → x ∈ (nodesWPL p l).map Prod.snd := by
  cases l with
  | nil =>
    rw [nodesWPL] at hm
    cases hm
  | cons c cst =>
    rw [nodesWPL] at hm
    rw [nodesWPL, List.map_append]
    rcases List.mem_append.mp hm with h1 | h1
    · intro x hx
      exact List.mem_append_left _ (subtree_mem_trans _ _ _ c h1 x hx)
    · intro x hx
      exact List.mem_append_right _ (subtreeL_mem_trans _ _ _ cst h1 x hx)
end

theorem href_mem_docHrefs (soup x : HNode) (h : Str)
    (hx : x ∈ (nodesWP none soup).map Prod.snd) (htag : x.tag = "a".data)
    (hhref : x.attr ("href".data) = some h) : h ∈ docHrefs soup := by
  unfold docHrefs
  exact List.mem_filterMap.mpr ⟨x, hx, by simp [htag, hhref]⟩

theorem foldl_urlCandStep_spec (P : Option Str → Prop) :
    ∀ (links : List HNode),
      (∀ l ∈ links, ∀ h, l.attr ("href".data) = some h → P (some h)) →
      ∀ acc, (∀ o ∈ acc, P o) →
      ∀ o ∈ links.foldl urlCandStep acc, P o := by
  intro links
  induction links with
  | nil =>
    intro _ acc hacc o ho
    exact hacc o (by simpa using ho)
  | cons l rest ih =>
    intro hlinks acc hacc o ho
    rw [List.foldl_cons] at ho
    refine ih (fun l2 h2 => hlinks l2 (List.mem_cons_of_mem _ h2))
      (urlCandStep acc l) ?_ o ho
    intro o2 ho2
    unfold urlCandStep at ho2
    cases hattr : l.attr ("href".data) with
    | none =>
      simp only [hattr] at ho2
      exact hacc o2 ho2
    | some href =>
      simp only [hattr] at ho2
      by_cases hp : (urlPriorityPatterns.any (fun pat => pyIn pat href)) = true
      · rw [if_pos hp] at ho2
        rcases List.mem_cons.mp ho2 with h3 | h3
        · subst h3
          exact hlinks l (List.mem_cons_self _ _) href hattr
        · exact hacc o2 h3
      · rw [if_neg hp] at ho2
        rcases List.mem_append.mp ho2 with h3 | h3
        · exact hacc o2 h3
        · rw [List.mem_singleton.mp h3]
          exact hlinks l (List.mem_cons_self _ _) href hattr

theorem urlCandidates_spec (e : HNode) (o : Option Str) (ho : o ∈ urlCandidates e)
    (h : Str) (heq : o = some h) :
    ∃ x, x ∈ (nodesWP none e).map Prod.snd ∧ x.tag = "a".data ∧
      x.attr ("href".data) = some h := by
  subst heq
  refine foldl_urlCandStep_spec
    (fun o2 => ∀ h2, o2 = some h2 → ∃ x, x ∈ (nodesWP none e).map Prod.snd ∧
      x.tag = "a".data ∧ x.attr ("href".data) = some h2)
    (linksOf e) ?_ _ ?_ (some h) ho h rfl
  · intro l hl h2 hh2
    have hl2 := List.mem_of_mem_filter hl
    have hpl : isHrefLink l = true := List.of_mem_filter hl
    have htag : l.tag = "a".data :=
      eq_of_beq ((Bool.and_eq_true _ _).mp hpl).1
    intro h3 hh3
    cases hh3
    refine ⟨l, ?_, htag, hh2⟩
    cases e
    exact List.mem_cons_of_mem _ hl2
  · intro o2 ho2
    by_cases he : (e.tag == "a".data) = true
    · rw [if_pos he] at ho2
      intro h2 hh2
      refine ⟨e, ?_, eq_of_beq he, by rw [← List.mem_singleton.mp ho2, hh2]⟩
      cases e
      exact List.mem_cons_self _ _
    · rw [if_neg he] at ho2
      cases ho2

theorem firstUrl_spec (base : Str) :
    ∀ (cands : List (Option Str)), ¬(firstUrl base cands).isEmpty = true →
      ∃ h, some h ∈ cands ∧ ¬h.isEmpty = true ∧
        firstUrl base cands =
          (if !(pyStartsWith ("http".data) h) then urljoin base h else h) := by
  intro cands
  induction cands with
  | nil =>
    intro hne
    exact absurd rfl hne
  | cons o rest ih =>
    cases o with
    | none =>
      intro hne
      obtain ⟨h, hmem, hn, he⟩ := ih hne
      exact ⟨h, List.mem_cons_of_mem _ hmem, hn, he⟩
    | some href =>
      intro hne
      unfold firstUrl at hne ⊢
      by_cases hhe : href.isEmpty = true
      · rw [if_pos hhe] at hne ⊢
        obtain ⟨h, hmem, hn, he⟩ := ih hne
        exact ⟨h, List.mem_cons_of_mem _ hmem, hn, he⟩
      · rw [if_neg hhe] at hne ⊢
        exact ⟨href, List.mem_cons_self _ _, hhe, rfl⟩

theorem assembleResult_some (sn n d u : Str) (r : SearchResult)
    (h : assembleResult sn n d u = some r) :
    r.url = u ∧ r.name = n ∧ ¬u.isEmpty = true ∧ ¬n.isEmpty = true := by
  unfold assembleResult at h
  by_cases hc : (!n.isEmpty && !u.isEmpty) = true
  · rw [if_pos hc] at h
    cases h
    refine ⟨rfl, rfl, ?_, ?_⟩
    · have := ((Bool.and_eq_true _ _).mp hc).2
      simp only [Bool.not_eq_true'] at this
      simp [this]
    · have := ((Bool.and_eq_true _ _).mp hc).1
      simp only [Bool.not_eq_true'] at this
      simp [this]
  · rw [if_neg hc] at h
    cases h

theorem extract_url_origin (parent : Option HNode) (e : HNode)
    (sn base surl : Str) (r : SearchResult)
    (hx : extract_result_enhanced parent e sn base surl = some r) :
    ∃ h x, x ∈ (nodesWP none e).map Prod.snd ∧ x.tag = "a".data ∧
      x.attr ("href".data) = some h ∧ ¬h.isEmpty = true ∧
      r.url = (if !(pyStartsWith ("http".data) h) then urljoin base h else h) := by
  obtain ⟨hu, hn, hune, hnne⟩ := assembleResult_some _ _ _ _ r hx
  obtain ⟨h, hmem, hne2, hform⟩ := firstUrl_spec base (urlCandidates e) hune
  obtain ⟨x, hx2, htag, hattr⟩ := urlCandidates_spec e (some h) hmem h rfl
  exact ⟨h, x, hx2, htag, hattr, hne2, by rw [hu, hform]⟩

theorem allowed_url_is_garbage (base h : Str)
    (hh : h = ("/login".data) ∨ h = ("/new".data) ∨ h = ("/search?q=x".data)) :
    (garbagePatterns.any (fun pat => pyIn pat
      (pyLower (if !(pyStartsWith ("http".data) h) then urljoin base h else h)))) =
      true := by
  have key : ∀ (pat : Str), pat ∈ garbagePatterns →
      pat <:+: pyLower h →
      (garbagePatterns.any (fun pat => pyIn pat
        (pyLower (if !(pyStartsWith ("http".data) h) then urljoin base h else h)))) =
        true := by
    intro pat hpat hinf
    apply List.any_eq_true.mpr
    refine ⟨pat, hpat, ?_⟩
    have hs : (!(pyStartsWith ("http".data) h)) = true := by
      rcases hh with h1 | h1 | h1 <;> subst h1 <;> decide
    rw [if_pos hs]
    have hslash : pyStartsWith (['/']) h = true := by
      rcases hh with h1 | h1 | h1 <;> subst h1 <;> decide
    unfold urljoin
    rw [if_pos hslash]
    unfold pyIn pyLower
    rw [List.map_append, decide_eq_true_eq]
    exact hinf.trans (List.suffix_append _ _).isInfix
  rcases hh with h1 | h1 | h1
  · exact key ("/login".data) (by subst h1; decide) (by subst h1; decide)
  · exact key ("/new".data) (by subst h1; decide) (by subst h1; decide)
  · exact key ("/search".data) (by subst h1; decide) (by subst h1; decide)

theorem allowed_record_invalid (r : SearchResult) (surl base h : Str)
    (hh : h = ("/login".data) ∨ h = ("/new".data) ∨ h = ("/search?q=x".data))
    (hurl : r.url = (if !(pyStartsWith ("http".data) h) then urljoin base h else h)) :
    is_valid_result r surl = false := by
  unfold is_valid_result
  rw [hurl, if_pos (allowed_url_is_garbage base h hh)]

theorem allowed_link_not_result (link : HNode) (surl h : Str)
    (hattr : link.attr ("href".data) = some h)
    (hh : h = ("/login".data) ∨ h = ("/new".data) ∨ h = ("/search?q=x".data)) :
    looks_like_result_link link surl = false := by
  unfold looks_like_result_link
  rw [hattr]
  simp only [Option.getD_some]
  by_cases hskip : (skipLinkPatterns.any (fun pat =>
      pyIn pat (pyLower h) || pyIn pat (pyLower (getTextStrip link)))) = true
  · rw [if_pos hskip]
  · rw [if_neg hskip]
    have hres : (resultLinkPatterns.any (fun pat => pyIn pat (pyLower h))) = false := by
      rcases hh with h1 | h1 | h1 <;> subst h1 <;> decide
    rw [hres]
    rfl

theorem firstSelectorHit_spec (soup : HNode) :
    ∀ sels els, firstSelectorHit soup sels = some els →
      ∀ pe ∈ els, pe ∈ descendantsWP soup := by
  intro sels
  induction sels with
  | nil =>
    intro els h
    cases h
  | cons sel rest ih =>
    intro els h
    unfold firstSelectorHit at h
    by_cases hlen : (selectWP soup sel).length > 1
    · rw [if_pos hlen] at h
      cases h
      intro pe hpe
      exact List.mem_of_mem_filter hpe
    · rw [if_neg hlen] at h
      exact ih els h

theorem collectGeneric_nil (sn base surl : Str) :
    ∀ elems, (∀ pe ∈ elems, ∀ r,
        extract_result_enhanced pe.1 pe.2 sn base surl = some r →
        is_valid_result r surl = false) →
      collectGeneric elems sn base surl = [] := by
  intro elems
  induction elems with
  | nil =>
    intro _
    rfl
  | cons pe rest ih =>
    intro hall
    cases hx : extract_result_enhanced pe.1 pe.2 sn base surl with
    | none =>
      simp only [collectGeneric, hx]
      exact ih (fun pe2 h2 => hall pe2 (List.mem_cons_of_mem _ h2))
    | some r =>
      have hv := hall pe (List.mem_cons_self _ _) r hx
      simp only [collectGeneric, hx, hv, Bool.and_false, Bool.false_eq_true, if_false]
      exact ih (fun pe2 h2 => hall pe2 (List.mem_cons_of_mem _ h2))

/-- C7: on any document whose hyperlinks all point to `/login`, `/new` or
    `/search?q=x`, the generic HTML pipeline returns zero records: none of
    these links passes the result-link filter, and any record assembled from
    container elements carries one of these utility URLs and fails the
    validity filter. -/
theorem generic_pipeline_drops_utility_links (soup : HNode)
    (source_name base_url search_url : Str)
    (hdoc : ∀ href ∈ docHrefs soup,
        href = ("/login".data) ∨ href = ("/new".data) ∨ href = ("/search?q=x".data)) :
    parse_generic_results soup source_name base_url search_url = [] := by
  unfold parse_generic_results
  cases hsel : firstSelectorHit soup resultSelectors with
  | some els =>
    apply collectGeneric_nil
    intro pe hpe r hx
    have hpe2 : pe ∈ descendantsWP soup :=
      firstSelectorHit_spec soup resultSelectors els hsel pe (List.take_subset _ _ hpe)
    obtain ⟨h, x, hxmem, htag, hattr, hne, hurl⟩ :=
      extract_url_origin pe.1 pe.2 source_name base_url search_url r hx
    obtain ⟨pp, m⟩ := pe
    have hpe3 : (pp, m) ∈ nodesWP none soup := mem_nodesWP_of_desc soup none _ hpe2
    have hx3 : x ∈ (nodesWP none soup).map Prod.snd :=
      subtree_mem_trans none pp m soup hpe3 x hxmem
    exact allowed_record_invalid r search_url base_url h
      (hdoc h (href_mem_docHrefs soup x h hx3 htag hattr)) hurl
  | none =>
    have hfil : (descendantsWP soup).filter
        (fun pn => isHrefLink pn.2 && looks_like_result_link pn.2 search_url) = [] := by
      apply List.filter_eq_nil_iff.mpr
      intro pn hpn
      by_cases hl : isHrefLink pn.2 = true
      · obtain ⟨h, hh⟩ :=
          Option.isSome_iff_exists.mp ((Bool.and_eq_true _ _).mp hl).2
        have htag : pn.2.tag = "a".data := eq_of_beq ((Bool.and_eq_true _ _).mp hl).1
        have hx3 : pn.2 ∈ (nodesWP none soup).map Prod.snd :=
          List.mem_map_of_mem Prod.snd (mem_nodesWP_of_desc soup none pn hpn)
        have hmem : h ∈ docHrefs soup := href_mem_docHrefs soup pn.2 h hx3 htag hh
        have hnl := allowed_link_not_result pn.2 search_url h hh (hdoc h hmem)
        simp [hl, hnl]
      · simp [hl]
    rw [hfil]
    rfl

/-- A document whose only hyperlinks are the three utility links, instantiating
    C7. -/
def doc7 : HNode :=
  .elem ("[document]".data) [] [] []
    [.elem ("a".data) [] [(("href".data), ("/login".data))] ("log in now".data) [],
     .elem ("a".data) [] [(("href".data), ("/new".data))] ("create new".data) [],
     .elem ("a".data) [] [(("href".data), ("/search?q=x".data))] ("search more".data) []]

theorem generic_pipeline_drops_utility_links_witness :
    parse_generic_results doc7 ("src".data) ("http://x.y".data)
      ("http://x.y/s".data) = [] :=
  generic_pipeline_drops_utility_links doc7 ("src".data) ("http://x.y".data)
    ("http://x.y/s".data) (by decide)

theorem collectGeneric_mem (sn base surl : Str) :
    ∀ elems (r : SearchResult), r ∈ collectGeneric elems sn base surl →
      ∃ pe : Option HNode × HNode,
        extract_result_enhanced pe.1 pe.2 sn base surl = some r := by
  intro elems
  induction elems with
  | nil =>
    intro r hr
    cases hr
  | cons pe rest ih =>
    intro r hr
    cases hx : extract_result_enhanced pe.1 pe.2 sn base surl with
    | none =>
      simp only [collectGeneric, hx] at hr
      exact ih r hr
    | some r0 =>
      simp only [collectGeneric, hx] at hr
      by_cases hc : (!(pyStrip r0.name).isEmpty && is_valid_result r0 surl) = true
      · rw [if_pos hc] at hr
        rcases List.mem_cons.mp hr with h2 | h2
        · subst h2
          exact ⟨pe, hx⟩
        · exact ih r h2
      · rw [if_neg hc] at hr
        exact ih r hr

theorem textLoop_no_url (sn : Str) :
    ∀ (lines : List Str) (r : SearchResult), r ∈ textLoop sn lines →
      r.url = [] ∧ r.github_url = [] := by
  intro lines
  induction lines with
  | nil =>
    intro r hr
    cases hr
  | cons l rest ih =>
    intro r hr
    unfold textLoop at hr
    by_cases hb : (!(pyStrip l).isEmpty) = true
    · rw [if_pos hb] at hr
      rcases List.mem_cons.mp hr with h2 | h2
      · subst h2
        exact ⟨rfl, rfl⟩
      · exact ih r h2
    · rw [if_neg hb] at hr
      exact ih r hr

/-- C4 (amended): the record invariant is enforced by the heuristic pipelines
    but not by the DirectAPI strategy: every markdown-catalog record has a
    non-empty name, every generic-HTML record has a non-empty name and a
    non-empty url, but `_parse_api_response` copies item fields unvalidated (an
    item without name/title/url fields yields a returned record with empty name
    and both URL fields empty), and every `_parse_text_response` record has
    both URL fields empty. -/
theorem record_invariant_by_strategy :
    (∀ (content : Str) (cfg : PyDict) (query : Str) (r : SearchResult),
        r ∈ parse_awesome_list_content content cfg query → r.name ≠ []) ∧
    (∀ (soup : HNode) (sn base surl : Str) (r : SearchResult),
        r ∈ parse_generic_results soup sn base surl → r.name ≠ [] ∧ r.url ≠ []) ∧
    (∀ (text : Str) (cfg : PyDict) (r : SearchResult),
        r ∈ parse_text_response text cfg → r.url = [] ∧ r.github_url = []) ∧
    (∃ (data : Json) (cfg : PyDict) (r : SearchResult),
        r ∈ parse_api_response data cfg ∧ r.name = [] ∧ r.url = [] ∧
        r.github_url = []) := by
  refine ⟨?_, ?_, ?_, ?_⟩
  · intro content cfg query r hr
    obtain ⟨l, cat2, _, hout⟩ := awesomeLoop_mem _ _ _ _ r hr
    exact lineOutcome_name_nonempty awesomePatterns _ _ _ _ r hout
  · intro soup sn base surl r hr
    unfold parse_generic_results at hr
    obtain ⟨pe, hx⟩ := collectGeneric_mem sn base surl _ r hr
    obtain ⟨hu, hn, hune, hnne⟩ := assembleResult_some _ _ _ _ r hx
    constructor
    · intro hnil
      apply hnne
      rw [← hn, hnil]
      rfl
    · intro hnil
      apply hune
      rw [← hu, hnil]
      rfl
  · intro text cfg r hr
    exact textLoop_no_url _ _ r hr
  · refine ⟨.obj [(("items".data), .arr [.obj []])], [], emptyItemRecord, ?_, rfl, rfl, rfl⟩
    exact (show parse_api_response (.obj [(("items".data), .arr [.obj []])]) [] =
      [emptyItemRecord] from rfl) ▸ List.mem_singleton_self emptyItemRecord

/-- A link-list document the generic pipeline accepts, instantiating the
    generic-HTML part of the amended C4. -/
def linkAlpha : HNode :=
  .elem ("a".data) [] [(("href".data), ("/server/alphatool".data))]
    ("AlphaTool".data) []

def linkBeta : HNode :=
  .elem ("a".data) [] [(("href".data), ("/server/betatool".data))]
    ("BetaTool".data) []

def docGen : HNode := .elem ("[document]".data) [] [] [] [linkAlpha, linkBeta]

def recAlpha : SearchResult :=
  { name := "AlphaTool".data, description := "No description available".data,
    url := "http://x.com/server/alphatool".data, source := "src".data }

def textRecA : SearchResult :=
  { name := "a".data, description := "Content from Unknown".data,
    source := "Unknown".data }

theorem record_invariant_by_strategy_witness :
    recFoo.name ≠ [] ∧
    (recAlpha.name ≠ [] ∧ recAlpha.url ≠ []) ∧
    (textRecA.url = [] ∧ textRecA.github_url = []) :=
  ⟨record_invariant_by_strategy.1 docC3 [] ("foo".data) recFoo
      ((show parse_awesome_list_content docC3 [] ("foo".data) = [recFoo] from rfl) ▸
        List.mem_singleton_self recFoo),
   record_invariant_by_strategy.2.1 docGen ("src".data) ("http://x.com".data)
      ("http://x.com/search?q=a".data) recAlpha
      ((show parse_generic_results docGen ("src".data) ("http://x.com".data)
          ("http://x.com/search?q=a".data) = [recAlpha,
            { name := "BetaTool".data, description := "No description available".data,
              url := "http://x.com/server/betatool".data,
              source := "src".data }] from rfl) ▸
        List.mem_cons_self recAlpha _),
   record_invariant_by_strategy.2.2.1 ("a".data) [] textRecA
      ((show parse_text_response ("a".data) [] = [textRecA] from rfl) ▸
        List.mem_singleton_self textRecA)⟩

end MCPSearch
